import Mathlib

/-!
Shallow embedding of the HTTP/1.x connection engine in `src/httpconn.c`.

The engine is modelled as a pure state machine: the `http_conn` struct becomes
the record `HttpConn`, the libevent input/output evbuffers become `List Char`
fields of the record, and every owner callback (`METHOD0`/`METHOD1` dispatch
through `struct http_cbs`) becomes an `Event` appended to the list of events a
step returns.  Functions are translated one-to-one from the C source, keeping
the C names.  Collaborators whose sources are not part of `src/`
(`headers.c`, `util.c`, the URL tokenizer) are modelled from the spec and are
marked `Modelled from the spec:` in their doc comments.
-/

/-- enum http_version (httpconn.h). -/
inductive HttpVersion
  | HTTP_UNKNOWN
  | HTTP_10
  | HTTP_11
deriving DecidableEq

/-- enum http_method (httpconn.h). -/
inductive HttpMethod
  | METH_GET
  | METH_HEAD
  | METH_POST
  | METH_PUT
  | METH_CONNECT
deriving DecidableEq

/-- enum http_te: transfer encoding of the message being read. -/
inductive HttpTe
  | TE_IDENTITY
  | TE_CHUNKED
deriving DecidableEq

/-- enum http_type: HTTP_CLIENT receives requests (local side is a server),
HTTP_SERVER receives responses (local side is a client). -/
inductive HttpType
  | HTTP_CLIENT
  | HTTP_SERVER
deriving DecidableEq

/-- enum http_state: the per-message protocol state machine. -/
inductive HttpState
  | CONNECTING
  | IDLE
  | READ_FIRSTLINE
  | READ_HEADERS
  | READ_BODY
  | MANGLED
deriving DecidableEq

/-- enum http_conn_error: the error kinds reported via on_error. -/
inductive HttpConnError
  | ERROR_NONE
  | ERROR_CONNECT_FAILED
  | ERROR_IDLE_CONN_TIMEDOUT
  | ERROR_INCOMPLETE_HEADERS
  | ERROR_INCOMPLETE_BODY
  | ERROR_WRITE_FAILED
  | ERROR_HEADER_PARSE_FAILED
  | ERROR_CHUNK_PARSE_FAILED
  | ERROR_CLIENT_POST_WITHOUT_LENGTH
deriving DecidableEq

open HttpVersion HttpMethod HttpTe HttpType HttpState HttpConnError

/-- Modelled from the spec: one entry of the header-list collaborator
(`headers.h`, not under src/): a `Name: value` pair. -/
structure Header where
  name : List Char
  value : List Char
deriving DecidableEq

/-- Modelled from the spec: the URL collaborator tokenizes a request-target
string; the engine serializes a request using the url's stored target, which
`http_conn_write_request` reads from the `query` field.  We model exactly the
component the engine uses. -/
structure Url where
  query : List Char
deriving DecidableEq

/-- struct http_request. -/
structure HttpRequest where
  meth : HttpMethod
  vers : HttpVersion
  url : Url
  headers : List Header
deriving DecidableEq

/-- struct http_response. -/
structure HttpResponse where
  vers : HttpVersion
  code : Int
  reason : List Char
  headers : List Header
deriving DecidableEq

/-- Owner callbacks (struct http_cbs) are modelled as events emitted by each
step.  `fatalLog` marks a `log_fatal` call, which terminates the process. -/
inductive Event
  | onConnect
  | onError (err : HttpConnError)
  | onClientRequest (req : HttpRequest)
  | onServerResponse (resp : HttpResponse)
  | onReadBody (data : List Char)
  | onMsgComplete
  | onWriteMore
  | onFlush
  | fatalLog
deriving DecidableEq

/-- struct http_conn.  The bufferevent is modelled by its input/output buffers
and its read/write enable bits; `inbuf_processed` is the staging evbuffer;
`watermarkLow` is the EV_WRITE low watermark; `fatal` records that `log_fatal`
ran (the process is gone). -/
structure HttpConn where
  state : HttpState
  vers : HttpVersion
  te : HttpTe
  type : HttpType
  is_choaked : Bool
  has_body : Bool
  read_paused : Bool
  msg_complete_on_eof : Bool
  persistent : Bool
  data_remaining : Int
  firstline : Option (List Char)
  headers : Option (List Header)
  inbuf : List Char
  outbuf : List Char
  inbuf_processed : List Char
  bevRead : Bool
  bevWrite : Bool
  watermarkLow : Nat
  fatal : Bool
deriving DecidableEq

/- ---------------------------------------------------------------------
   Byte-level utilities shared by the collaborator models.
   --------------------------------------------------------------------- -/

/-- Split a list at the first occurrence of `c`: returns the part before and
the part after it, or `none` when `c` does not occur. -/
def splitAtChar (c : Char) : List Char → Option (List Char × List Char)
  | [] => none
  | x :: rest =>
    if x = c then some ([], rest)
    else (splitAtChar c rest).map (fun p => (x :: p.1, p.2))

/-- Drop a single trailing carriage return, as EVBUFFER_EOL_CRLF does with the
optional CR before the LF. -/
def dropTrailingCr (l : List Char) : List Char :=
  if l.getLast? = some '\r' then l.dropLast else l

/-- evbuffer_readln with EVBUFFER_EOL_CRLF: a line is everything before the
first LF, with one trailing CR removed; `none` when no LF is buffered (the
buffer is then left untouched). -/
def readln (buf : List Char) : Option (List Char × List Char) :=
  (splitAtChar '\n' buf).map (fun p => (dropTrailingCr p.1, p.2))

/-- Lower-case one ASCII character, for the case-insensitive comparisons done
via evutil_ascii_strcasecmp. -/
def lowerChar (c : Char) : Char :=
  if 'A' ≤ c ∧ c ≤ 'Z' then Char.ofNat (c.toNat + 32) else c

/-- evutil_ascii_strcasecmp equality: ASCII case-insensitive match. -/
def caseEq (a b : List Char) : Bool :=
  decide (a.map lowerChar = b.map lowerChar)

/-- Value of a hexadecimal digit, `none` for a non-digit. -/
def digitVal (c : Char) : Option Nat :=
  if '0' ≤ c ∧ c ≤ '9' then some (c.toNat - '0'.toNat)
  else if 'a' ≤ c ∧ c ≤ 'f' then some (c.toNat - 'a'.toNat + 10)
  else if 'A' ≤ c ∧ c ≤ 'F' then some (c.toNat - 'A'.toNat + 10)
  else none

def get_int_aux (base : Nat) : List Char → Nat → Option Nat
  | [], acc => some acc
  | c :: rest, acc =>
    match digitVal c with
    | some d => if d < base then get_int_aux base rest (acc * base + d) else none
    | none => none

/-- Modelled from the spec: `get_int` from the missing util module parses a
string as a non-negative integer in the given base and returns a negative
value on malformed input (the callers only test `< 0`). -/
def get_int (s : List Char) (base : Nat) : Int :=
  if s = [] then -1
  else
    match get_int_aux base s 0 with
    | some n => (n : Int)
    | none => -1

def atoiDigitsAux : List Char → Nat → Nat
  | [], acc => acc
  | c :: rest, acc =>
    if '0' ≤ c ∧ c ≤ '9' then atoiDigitsAux rest (acc * 10 + (c.toNat - 48))
    else acc

/-- Value of the longest decimal-digit prefix, 0 when there is none. -/
def atoiDigits (s : List Char) : Int :=
  (atoiDigitsAux s 0 : Int)

/-- libc atoi: skip leading spaces, optional sign, then the decimal value of
the digit prefix (0 when there are no digits). -/
def atoi (s : List Char) : Int :=
  let s := s.dropWhile (fun c => c = ' ')
  match s with
  | [] => 0
  | c :: rest =>
    if c = '-' then -(atoiDigits rest)
    else if c = '+' then atoiDigits rest
    else atoiDigits (c :: rest)

/-- Decimal printer, fuel-indexed so it evaluates in the kernel; the fuel
bounds the number of digits. -/
def natToDecF : Nat → Nat → List Char
  | 0, _ => []
  | fuel + 1, n =>
    if n < 10 then [Char.ofNat (48 + n)]
    else natToDecF fuel (n / 10) ++ [Char.ofNat (48 + n % 10)]

/-- Decimal representation of a natural number, as printf %u renders it. -/
def natToDec (n : Nat) : List Char := natToDecF (n + 1) n

/-- Decimal representation of an integer, as printf %d renders it. -/
def intToDec (i : Int) : List Char :=
  if i < 0 then '-' :: natToDec (-i).toNat else natToDec i.toNat

/-- Modelled from the spec: the generic line-tokenizer utility of the missing
util module.  `tokenize sep n s` splits `s` on `sep` at most `n` times,
leaving the remainder in the last token; the C callers check the resulting
token count. -/
def tokenize (sep : Char) : Nat → List Char → List (List Char)
  | 0, s => [s]
  | n + 1, s =>
    match splitAtChar sep s with
    | none => [s]
    | some (a, b) => a :: tokenize sep n b

/-- Modelled from the spec: `url_tokenize` of the URL collaborator tokenizes a
request-target; it fails on an empty target and otherwise stores the target
the engine later serializes. -/
def url_tokenize (s : List Char) : Option Url :=
  if s = [] then none else some { query := s }

/- ---------------------------------------------------------------------
   Header-list collaborator (headers.c is not under src/).
   --------------------------------------------------------------------- -/

def dropLeadingSpace : List Char → List Char
  | ' ' :: rest => rest
  | l => l

/-- Modelled from the spec: parse one `Name: value` line of the header-list
collaborator; a line without a colon is a parse error. -/
def parseHeaderLine (l : List Char) : Option Header :=
  match splitAtChar ':' l with
  | none => none
  | some (n, v) => some { name := n, value := dropLeadingSpace v }

def headers_load_aux : Nat → List Header → List Char →
    Int × List Header × List Char
  | 0, hs, buf => (0, hs, buf)
  | fuel + 1, hs, buf =>
    match readln buf with
    | none => (0, hs, buf)
    | some (line, rest) =>
      if line = [] then (1, hs, rest)
      else
        match parseHeaderLine line with
        | none => (-1, hs, rest)
        | some h => headers_load_aux fuel (hs ++ [h]) rest

/-- Modelled from the spec: `headers_load` of the header-list collaborator
incrementally consumes CRLF-terminated `Name: value` lines until the blank
line and reports -1 = parse error, 0 = incomplete, 1 = complete.  Each
consumed line shrinks the buffer, so `length + 1` fuel is enough for the loop
to reach its fixed point. -/
def headers_load (hs : List Header) (buf : List Char) :
    Int × List Header × List Char :=
  headers_load_aux (buf.length + 1) hs buf

/-- Modelled from the spec: the header-list serializer renders the list as
CRLF-terminated `Name: value` lines plus a terminating blank line. -/
def headers_dump : List Header → List Char
  | [] => ['\r', '\n']
  | h :: rest => h.name ++ ':' :: ' ' :: (h.value ++ '\r' :: '\n' :: headers_dump rest)

/-- Modelled from the spec: case-insensitive lookup of the first header with
the given name, returning its value. -/
def headers_find (hs : List Header) (name : List Char) : Option (List Char) :=
  match hs with
  | [] => none
  | h :: rest => if caseEq h.name name then some h.value else headers_find rest name

/- ---------------------------------------------------------------------
   First-line conversions (httpconn.c).
   --------------------------------------------------------------------- -/

/-- method_from_string: case-insensitive match of the five known methods. -/
def method_from_string (s : List Char) : Option HttpMethod :=
  if caseEq s "GET".toList then some METH_GET
  else if caseEq s "HEAD".toList then some METH_HEAD
  else if caseEq s "POST".toList then some METH_POST
  else if caseEq s "PUT".toList then some METH_PUT
  else if caseEq s "CONNECT".toList then some METH_CONNECT
  else none

/-- method_to_string. -/
def method_to_string : HttpMethod → List Char
  | METH_GET => "GET".toList
  | METH_HEAD => "HEAD".toList
  | METH_POST => "POST".toList
  | METH_PUT => "PUT".toList
  | METH_CONNECT => "CONNECT".toList

/-- version_from_string: a case-insensitive `HTTP/` prefix followed by the
exact text `1.0` or `1.1`. -/
def version_from_string (s : List Char) : Option HttpVersion :=
  if caseEq (s.take 5) "HTTP/".toList then
    let rest := s.drop 5
    if rest = "1.0".toList then some HTTP_10
    else if rest = "1.1".toList then some HTTP_11
    else none
  else none

/-- version_to_string. -/
def version_to_string : HttpVersion → List Char
  | HTTP_UNKNOWN => "HTTP/??".toList
  | HTTP_10 => "HTTP/1.0".toList
  | HTTP_11 => "HTTP/1.1".toList

/- ---------------------------------------------------------------------
   Message lifecycle (httpconn.c lines 136-166).
   --------------------------------------------------------------------- -/

/-- begin_message: allocate a fresh header list, go to IDLE, re-enable read
and write on the bufferevent. -/
def begin_message (conn : HttpConn) : HttpConn :=
  { conn with headers := some [], state := IDLE, bevRead := true, bevWrite := true }

/-- end_message: free the first line, clear the header list; on an error or a
non-persistent message go to MANGLED and disable transport I/O, otherwise
re-arm via begin_message; finally report on_error or on_msg_complete. -/
def end_message (conn : HttpConn) (err : HttpConnError) : HttpConn × List Event :=
  let conn := { conn with
    firstline := none,
    headers := conn.headers.map (fun _ => ([] : List Header)) }
  let conn :=
    if err ≠ ERROR_NONE ∨ conn.persistent = false then
      { conn with state := MANGLED, bevRead := false, bevWrite := false }
    else
      begin_message conn
  (conn, [if err ≠ ERROR_NONE then Event.onError err else Event.onMsgComplete])

/- ---------------------------------------------------------------------
   Message builders (httpconn.c lines 168-249).
   --------------------------------------------------------------------- -/

/-- build_request: tokenize the stored first line into exactly method, url and
version (at most 4 splits); unknown method/version or a bad url is a failure.
The header list of the connection becomes the request's. -/
def build_request (firstline : List Char) (headers : List Header) :
    Option HttpRequest :=
  let tokens := tokenize ' ' 4 firstline
  if tokens.length ≠ 3 then none
  else
    match url_tokenize (tokens.getD 1 []),
          method_from_string (tokens.getD 0 []),
          version_from_string (tokens.getD 2 []) with
    | some u, some m, some v =>
      some { meth := m, vers := v, url := u, headers := headers }
    | _, _, _ => none

/-- build_response: tokenize the stored first line into version, code and
reason (at most 2 splits, so the reason keeps its spaces); the code parses via
atoi and must lie in 100..999. -/
def build_response (firstline : List Char) (headers : List Header) :
    Option HttpResponse :=
  let tokens := tokenize ' ' 2 firstline
  if tokens.length ≠ 3 then none
  else
    let c := atoi (tokens.getD 1 [])
    match version_from_string (tokens.getD 0 []) with
    | some v =>
      if c < 100 ∨ c > 999 then none
      else some { vers := v, code := c, reason := tokens.getD 2 [], headers := headers }
    | none => none

/- ---------------------------------------------------------------------
   Chunked decoding (httpconn.c lines 251-311).
   --------------------------------------------------------------------- -/

def parse_chunk_len_aux : Nat → HttpConn → Int × HttpConn
  | 0, conn => (0, conn)
  | fuel + 1, conn =>
    match readln conn.inbuf with
    | none => (0, conn)
    | some (line, rest) =>
      let conn := { conn with inbuf := rest }
      if line = [] then parse_chunk_len_aux fuel conn
      else
        let len := get_int line 16
        if len < 0 then (-1, conn)
        else (1, { conn with data_remaining := len })

/-- parse_chunk_len: read lines, skipping empty ones, until a chunk-size line;
-1 = invalid size, 0 = no complete line buffered yet, 1 = size stored in
data_remaining.  Every consumed line shrinks the input, so `length + 1` fuel
always reaches the loop's exit. -/
def parse_chunk_len (conn : HttpConn) : Int × HttpConn :=
  parse_chunk_len_aux (conn.inbuf.length + 1) conn

/-- read_chunk: the three chunked sub-phases keyed by data_remaining.  The
on_read_body callback receives the staging buffer; per the callback contract
(bytes valid only for the callback's duration) the owner drains it, so the
staging buffer is empty again after the event. -/
def read_chunk (conn : HttpConn) : HttpConn × List Event :=
  if conn.data_remaining < 0 then
    let (r, conn) := parse_chunk_len conn
    if r < 0 then end_message conn ERROR_CHUNK_PARSE_FAILED
    else (conn, [])
  else if conn.data_remaining = 0 then
    match readln conn.inbuf with
    | some (_line, rest) =>
      -- a non-empty line here is only logged: trailers are not handled
      end_message { conn with inbuf := rest } ERROR_NONE
    | none => (conn, [])
  else
    let len := min conn.inbuf.length conn.data_remaining.toNat
    let chunk := conn.inbuf.take len
    let conn := { conn with
      inbuf := conn.inbuf.drop len,
      inbuf_processed := conn.inbuf_processed ++ chunk }
    let ev := Event.onReadBody conn.inbuf_processed
    let conn := { conn with
      inbuf_processed := [],
      data_remaining := conn.data_remaining - (len : Int) }
    let conn :=
      if conn.data_remaining = 0 then { conn with data_remaining := -1 } else conn
    (conn, [ev])

/-- read_body (httpconn.c lines 313-343): chunked bodies delegate to
read_chunk; otherwise deliver input up to data_remaining when a length is
known (clamping), or all of it when the length is unknown, then decrement the
counter by the delivered length and end the message when it reaches zero. -/
def read_body (conn : HttpConn) : HttpConn × List Event :=
  if conn.te = TE_CHUNKED then read_chunk conn
  else
    let len0 := conn.inbuf.length
    if len0 = 0 then (conn, [])
    else
      let clamp := 0 ≤ conn.data_remaining ∧ conn.data_remaining < (len0 : Int)
      let len := if clamp then conn.data_remaining.toNat else len0
      let chunk := conn.inbuf.take len
      let conn := { conn with
        inbuf := conn.inbuf.drop len,
        inbuf_processed := conn.inbuf_processed ++ chunk }
      let ev := Event.onReadBody conn.inbuf_processed
      let conn := { conn with
        inbuf_processed := [],
        data_remaining := conn.data_remaining - (len : Int) }
      if conn.data_remaining = 0 then
        let (conn, evs) := end_message conn ERROR_NONE
        (conn, ev :: evs)
      else (conn, [ev])

/- ---------------------------------------------------------------------
   Header completion (httpconn.c lines 345-482).
   --------------------------------------------------------------------- -/

/-- The persistence tail of check_headers (lines 406-427).  Note the faithful
translation of line 421: `if (evutil_ascii_strcasecmp(val, "close"))
persistent = 0;` zeroes persistent precisely when strcasecmp is non-zero,
i.e. when the Connection value does NOT match "close". -/
def check_headers_tail (conn : HttpConn) (hs : List Header)
    (vers : HttpVersion) : HttpConn × List Event :=
  let persistent :=
    if conn.msg_complete_on_eof = false ∧ vers = HTTP_11 then true else false
  let persistent :=
    if conn.vers ≠ HTTP_UNKNOWN ∧ conn.vers ≠ vers then false else persistent
  let conn := { conn with vers := vers }
  let persistent :=
    if persistent then
      match headers_find hs "connection".toList with
      | some val => if caseEq val "close".toList then persistent else false
      | none => persistent
    else persistent
  ({ conn with persistent := persistent }, [])

/-- The body-framing header checks of check_headers (lines 372-396): a
case-insensitive `Transfer-Encoding: chunked` forces chunked; otherwise a
parseable Content-Length sets data_remaining (zero meaning no body after
all), and a missing Content-Length makes the message complete on EOF. -/
def check_headers_framing (conn : HttpConn) (hs : List Header) : HttpConn :=
  let conn :=
    match headers_find hs "transfer-encoding".toList with
    | some val => if caseEq val "chunked".toList then { conn with te := TE_CHUNKED } else conn
    | none => conn
  if conn.te ≠ TE_CHUNKED then
    match headers_find hs "content-length".toList with
    | some val =>
      let iv := get_int val 10
      -- a negative parse is only logged: mangled Content-Length is ignored
      let conn := if iv < 0 then conn else { conn with data_remaining := iv }
      if conn.data_remaining = 0 then { conn with has_body := false } else conn
    | none => { conn with msg_complete_on_eof := true }
  else conn

/-- check_headers (lines 345-427): reset the framing defaults, decide body
presence by role, run the framing header checks, report the fatal
ClientPostWithoutLength case (returning early, before the persistence logic),
otherwise negotiate persistence. -/
def check_headers (conn : HttpConn) (req : Option HttpRequest)
    (resp : Option HttpResponse) : HttpConn × List Event :=
  let conn := { conn with
    te := TE_IDENTITY, has_body := true,
    msg_complete_on_eof := false, data_remaining := -1 }
  let vers :=
    if conn.type = HTTP_CLIENT then
      match req with | some r => r.vers | none => HTTP_UNKNOWN
    else
      match resp with | some r => r.vers | none => HTTP_UNKNOWN
  let conn :=
    if conn.type = HTTP_CLIENT then
      match req with
      | some r =>
        { conn with has_body := r.meth = METH_POST ∨ r.meth = METH_PUT }
      | none => { conn with has_body := false }
    else
      match resp with
      | some r =>
        if (100 ≤ r.code ∧ r.code < 200) ∨ r.code = 204 ∨ r.code = 205 ∨ r.code = 304
        then { conn with has_body := false } else conn
      | none => conn
  let hs := conn.headers.getD []
  if conn.has_body then
    let conn := check_headers_framing conn hs
    if conn.type = HTTP_CLIENT ∧ conn.data_remaining < 0 ∧ conn.te ≠ TE_CHUNKED then
      (conn, [Event.onError ERROR_CLIENT_POST_WITHOUT_LENGTH])
    else check_headers_tail conn hs vers
  else check_headers_tail conn hs vers

/-- read_headers (lines 429-482): drive headers_load; on completion build the
request or response from the stored first line, run check_headers, hand the
header list's ownership on, deliver the message, and either end a bodyless
message or move to READ_BODY. -/
def read_headers (conn : HttpConn) : HttpConn × List Event :=
  let hs0 := conn.headers.getD []
  let (r, hs, rest) := headers_load hs0 conn.inbuf
  let conn := { conn with inbuf := rest, headers := some hs }
  if r = -1 then end_message conn ERROR_HEADER_PARSE_FAILED
  else if r = 0 then (conn, [])
  else
    let fl := conn.firstline.getD []
    let req := if conn.type = HTTP_CLIENT then build_request fl hs else none
    let resp := if conn.type = HTTP_SERVER then build_response fl hs else none
    let failed :=
      if conn.type = HTTP_CLIENT then req = none else resp = none
    let conn := { conn with firstline := none }
    if failed then end_message conn ERROR_HEADER_PARSE_FAILED
    else
      let (conn, evs1) := check_headers conn req resp
      let conn := { conn with headers := none }
      let evs2 :=
        (match req with | some r => [Event.onClientRequest r] | none => []) ++
        (match resp with | some r => [Event.onServerResponse r] | none => [])
      if conn.has_body = false then
        let (conn, evs3) := end_message conn ERROR_NONE
        (conn, evs1 ++ evs2 ++ evs3)
      else ({ conn with state := READ_BODY }, evs1 ++ evs2)

/- ---------------------------------------------------------------------
   Transport callbacks and the read loop (httpconn.c lines 484-586).
   --------------------------------------------------------------------- -/

/-- The `what` flag set delivered to the bufferevent event callback. -/
structure BevWhat where
  connected : Bool
  writing : Bool
  eof : Bool
  timeout : Bool
deriving DecidableEq

/-- http_errorcb (lines 484-528): connect completion/failure while
CONNECTING; otherwise the state is saved, the connection is marked MANGLED,
and the transport event is mapped to a typed error — except that an EOF in
READ_BODY with msg_complete_on_eof ends the message successfully. -/
def http_errorcb (conn : HttpConn) (what : BevWhat) : HttpConn × List Event :=
  if conn.state = CONNECTING then
    if what.connected then (begin_message conn, [Event.onConnect])
    else ({ conn with state := MANGLED }, [Event.onError ERROR_CONNECT_FAILED])
  else
    let state := conn.state
    let conn := { conn with state := MANGLED }
    if what.writing then end_message conn ERROR_WRITE_FAILED
    else
      match state with
      | IDLE => end_message conn ERROR_IDLE_CONN_TIMEDOUT
      | READ_FIRSTLINE => end_message conn ERROR_INCOMPLETE_HEADERS
      | READ_HEADERS => end_message conn ERROR_INCOMPLETE_HEADERS
      | READ_BODY =>
        if what.eof ∧ conn.msg_complete_on_eof then end_message conn ERROR_NONE
        else end_message conn ERROR_INCOMPLETE_BODY
      | _ => ({ conn with fatal := true }, [Event.fatalLog])

/-- process_one_message (lines 530-555): IDLE falls through to reading the
first line; a state outside the read states hits log_fatal. -/
def process_one_message (conn : HttpConn) : HttpConn × List Event :=
  match conn.state with
  | IDLE | READ_FIRSTLINE =>
    let conn := { conn with state := READ_FIRSTLINE }
    (match readln conn.inbuf with
     | some (line, rest) =>
       ({ conn with firstline := some line, inbuf := rest, state := READ_HEADERS }, [])
     | none => (conn, []))
  | READ_HEADERS => read_headers conn
  | READ_BODY => read_body conn
  | _ => ({ conn with fatal := true }, [Event.fatalLog])

/-- process_inbuf (lines 557-566): the do-while loop, with explicit fuel.  The
C loop keeps iterating while reading is not paused and the input buffer is
non-empty; it stops early only because log_fatal terminates the process, which
the `fatal` flag records.  Exhausted fuel returns the state reached so far —
the real loop would simply keep spinning without further events. -/
def process_inbuf_fuel : Nat → HttpConn → HttpConn × List Event
  | 0, conn => (conn, [])
  | fuel + 1, conn =>
    let (conn', evs) := process_one_message conn
    if conn'.read_paused = false ∧ conn'.inbuf ≠ [] ∧ conn'.fatal = false then
      let (conn'', evs') := process_inbuf_fuel fuel conn'
      (conn'', evs ++ evs')
    else (conn', evs)

/-- http_writecb (lines 574-586): when choked, reset the watermark, clear the
choke and notify on_write_more; otherwise notify on_flush once the output has
fully drained. -/
def http_writecb (conn : HttpConn) : HttpConn × List Event :=
  if conn.is_choaked then
    ({ conn with watermarkLow := 0, is_choaked := false }, [Event.onWriteMore])
  else if conn.outbuf.length = 0 then (conn, [Event.onFlush])
  else (conn, [])

/- ---------------------------------------------------------------------
   Write side (httpconn.c lines 28-29 and 634-692).
   --------------------------------------------------------------------- -/

/-- max amount of data backlogged on outbuf before choking: 50 KiB. -/
def max_write_backlog : Nat := 50 * 1024

/-- The response first line written by http_conn_write_response (lines
653-670): printf "%s %d %s\r\n" with version_to_string(conn->vers) — the
connection's negotiated version, not the response's. -/
def response_firstline (conn : HttpConn) (resp : HttpResponse) : List Char :=
  version_to_string conn.vers ++ ' ' :: (intToDec resp.code ++ ' ' :: (resp.reason ++ ['\r', '\n']))

/-- http_conn_write_response: append the first line and the dumped headers to
the transport output buffer. -/
def http_conn_write_response (conn : HttpConn) (resp : HttpResponse) : HttpConn :=
  { conn with outbuf := conn.outbuf ++ response_firstline conn resp ++ headers_dump resp.headers }

/-- The request first line written by http_conn_write_request (lines
634-651): printf "%s %s %s\r\n" with the method, the url's stored target and
the request's own version. -/
def request_firstline (req : HttpRequest) : List Char :=
  method_to_string req.meth ++ ' ' :: (req.url.query ++ ' ' :: (version_to_string req.vers ++ ['\r', '\n']))

/-- http_conn_write_request. -/
def http_conn_write_request (conn : HttpConn) (req : HttpRequest) : HttpConn :=
  { conn with outbuf := conn.outbuf ++ request_firstline req ++ headers_dump req.headers }

/-- http_conn_write_buf (lines 672-692): evbuffer_add_buffer moves the entire
caller buffer onto the output buffer; if the output buffer then exceeds the
high-water threshold, arm the low watermark at half the threshold, mark the
connection choked, and report 0; otherwise report 1.  The result is the new
connection, the caller's (now empty) buffer, and the C return value. -/
def http_conn_write_buf (conn : HttpConn) (buf : List Char) :
    HttpConn × List Char × Int :=
  let conn := { conn with outbuf := conn.outbuf ++ buf }
  if max_write_backlog < conn.outbuf.length then
    ({ conn with watermarkLow := max_write_backlog / 2, is_choaked := true }, [], 0)
  else (conn, [], 1)

/- ---------------------------------------------------------------------
   Parse pipelines for the round-trip property: the same pieces the read
   loop composes (evbuffer_readln for the first line, headers_load for the
   header block, then the message builder).
   --------------------------------------------------------------------- -/

/-- Re-parse serialized response bytes with the engine's builder. -/
def parse_response_bytes (buf : List Char) : Option HttpResponse :=
  match readln buf with
  | none => none
  | some (fl, rest) =>
    let (r, hs, _rest') := headers_load [] rest
    if r = 1 then build_response fl hs else none

/-- Re-parse serialized request bytes with the engine's builder. -/
def parse_request_bytes (buf : List Char) : Option HttpRequest :=
  match readln buf with
  | none => none
  | some (fl, rest) =>
    let (r, hs, _rest') := headers_load [] rest
    if r = 1 then build_request fl hs else none

/- ---------------------------------------------------------------------
   Concrete scenario fixtures used by the theorems below.
   --------------------------------------------------------------------- -/

/-- A connection in READ_BODY with a chunked body pending, as reached after a
successful HTTP/1.1 header block that negotiated chunked transfer and
persistence; the input buffer is a parameter. -/
def chunk_conn (buf : List Char) : HttpConn :=
  { state := READ_BODY, vers := HTTP_11, te := TE_CHUNKED, type := HTTP_SERVER,
    is_choaked := false, has_body := true, read_paused := false,
    msg_complete_on_eof := false, persistent := true, data_remaining := -1,
    firstline := none, headers := none, inbuf := buf,
    outbuf := [], inbuf_processed := [], bevRead := true, bevWrite := true,
    watermarkLow := 0, fatal := false }

/-- A RequestReceiver (HTTP_CLIENT type) connection idle at the start of a
message, with the POST request of spec §8 buffered. -/
def post_conn : HttpConn :=
  { state := IDLE, vers := HTTP_UNKNOWN, te := TE_IDENTITY, type := HTTP_CLIENT,
    is_choaked := false, has_body := true, read_paused := false,
    msg_complete_on_eof := false, persistent := false, data_remaining := 0,
    firstline := none, headers := some [],
    inbuf := "POST / HTTP/1.1\r\nHost: a\r\n\r\n".toList,
    outbuf := [], inbuf_processed := [], bevRead := true, bevWrite := true,
    watermarkLow := 0, fatal := false }

/-- The request that `"POST / HTTP/1.1\r\nHost: a\r\n\r\n"` parses to. -/
def post_req : HttpRequest :=
  { meth := METH_POST, vers := HTTP_11, url := { query := "/".toList },
    headers := [{ name := "Host".toList, value := "a".toList }] }

/-- A ResponseReceiver (HTTP_SERVER type) connection whose just-finished
header block is being checked; the header list is a parameter. -/
def resp_conn (hs : List Header) : HttpConn :=
  { state := READ_HEADERS, vers := HTTP_UNKNOWN, te := TE_IDENTITY,
    type := HTTP_SERVER, is_choaked := false, has_body := true,
    read_paused := false, msg_complete_on_eof := false, persistent := false,
    data_remaining := 0, firstline := none, headers := some hs, inbuf := [],
    outbuf := [], inbuf_processed := [], bevRead := true, bevWrite := true,
    watermarkLow := 0, fatal := false }

/-- Headers `Content-Length: 5` and `Connection: close`. -/
def close_headers : List Header :=
  [{ name := "Content-Length".toList, value := "5".toList },
   { name := "Connection".toList, value := "close".toList }]

/-- Headers `Content-Length: 5` and `Connection: keep-alive`. -/
def keepalive_headers : List Header :=
  [{ name := "Content-Length".toList, value := "5".toList },
   { name := "Connection".toList, value := "keep-alive".toList }]

/-- An HTTP/1.1 200 response with a known body length. -/
def ok_response : HttpResponse :=
  { vers := HTTP_11, code := 200, reason := "OK".toList, headers := [] }

/-- A connection (sending side of a RequestReceiver endpoint) whose
negotiated version is HTTP/1.1 and whose output buffer is empty. -/
def write_conn : HttpConn :=
  { state := IDLE, vers := HTTP_11, te := TE_IDENTITY, type := HTTP_CLIENT,
    is_choaked := false, has_body := true, read_paused := false,
    msg_complete_on_eof := false, persistent := true, data_remaining := 0,
    firstline := none, headers := some [], inbuf := [],
    outbuf := [], inbuf_processed := [], bevRead := true, bevWrite := true,
    watermarkLow := 0, fatal := false }

/-- An HTTP/1.0 response; serializing it on `write_conn` (negotiated
HTTP/1.1) exhibits the version substitution. -/
def http10_response : HttpResponse :=
  { vers := HTTP_10, code := 200, reason := "OK".toList,
    headers := [{ name := "Host".toList, value := "a".toList }] }

/-- A connection streaming an unknown-length (complete-on-EOF) body with five
bytes of input buffered. -/
def eof_body_conn : HttpConn :=
  { state := READ_BODY, vers := HTTP_11, te := TE_IDENTITY, type := HTTP_SERVER,
    is_choaked := false, has_body := true, read_paused := false,
    msg_complete_on_eof := true, persistent := false, data_remaining := -1,
    firstline := none, headers := none, inbuf := "hello".toList,
    outbuf := [], inbuf_processed := [], bevRead := true, bevWrite := true,
    watermarkLow := 0, fatal := false }

/-- Whether an event is a body-data delivery. -/
def isReadBodyEvent : Event → Bool
  | Event.onReadBody _ => true
  | _ => false

/- ---------------------------------------------------------------------
   Theorems.
   --------------------------------------------------------------------- -/

/-- C1: the claim says `persistent` is downgraded to false exactly when the
Connection header value case-insensitively equals "close", and any other
value leaves it true.  The code at httpconn.c:421 tests
`evutil_ascii_strcasecmp(val, "close")` without negating it, so on an
otherwise persistent HTTP/1.1 message `Connection: close` leaves
`persistent` true while `Connection: keep-alive` forces it false — the exact
inverse of the claim. -/
theorem c1_connection_close_inverted :
    (check_headers (resp_conn close_headers) none (some ok_response)).1.persistent = true
    ∧ (check_headers (resp_conn keepalive_headers) none (some ok_response)).1.persistent = false := by
  decide

/-- C2: on `"POST / HTTP/1.1\r\nHost: a\r\n\r\n"` the engine does report
exactly one ClientPostWithoutLength error, but `read_headers` then still
invokes on_client_request with the parsed request (check_headers's early
return does not stop the caller), so the "no request-delivered callback"
half of the claim fails on the code. -/
theorem c2_post_without_length_still_delivers :
    (process_inbuf_fuel 10 post_conn).2 =
      [Event.onError ERROR_CLIENT_POST_WITHOUT_LENGTH, Event.onClientRequest post_req] := by
  decide

/-- C3: the claim says every on_error report leaves the connection in the
terminal MANGLED state with transport I/O disabled and no further activity.
On the ClientPostWithoutLength path the error is reported via the callback
table directly, without end_message: the connection proceeds to READ_BODY
with reading still enabled, and even delivers the request after the error. -/
theorem c3_error_without_mangled :
    Event.onError ERROR_CLIENT_POST_WITHOUT_LENGTH ∈ (process_inbuf_fuel 10 post_conn).2
    ∧ (process_inbuf_fuel 10 post_conn).1.state = READ_BODY
    ∧ (process_inbuf_fuel 10 post_conn).1.state ≠ MANGLED
    ∧ (process_inbuf_fuel 10 post_conn).1.bevRead = true := by
  decide

/-- C4 counterexample: http_conn_write_response serializes
`version_to_string(conn->vers)` — the connection's negotiated version — so a
response carrying HTTP/1.0 written on a connection whose negotiated version
is HTTP/1.1 re-parses with version HTTP/1.1, not its own: the round trip
fails and the serialized first line does not carry the response's version. -/
theorem c4_response_version_counterexample :
    parse_response_bytes ((http_conn_write_response write_conn http10_response).outbuf)
        ≠ some http10_response
    ∧ parse_response_bytes ((http_conn_write_response write_conn http10_response).outbuf)
        = some { http10_response with vers := HTTP_11 } := by
  decide

/-- C9 counterexample: the claim says bodyBytesRemaining never takes a value
below -1, in particular not while streaming a completeOnEof body.  read_body
on an unknown-length body subtracts the delivered length from the -1
sentinel: after five buffered bytes it is -6. -/
theorem c9_below_minus_one_counterexample :
    (read_body eof_body_conn).1.data_remaining = -6
    ∧ (read_body eof_body_conn).1.data_remaining < -1 := by
  decide

/-- C10: http_conn_write_buf moves the caller's entire buffer onto the
transport output buffer unconditionally — evbuffer_add_buffer runs before the
choke check — so no bytes are dropped and none remain with the caller, and
the 0 return is purely advisory. -/
theorem c10_write_buf_moves_everything :
    ∀ (conn : HttpConn) (buf : List Char),
      (http_conn_write_buf conn buf).1.outbuf = conn.outbuf ++ buf
      ∧ (http_conn_write_buf conn buf).2.1 = [] := by
  intro conn buf
  simp only [http_conn_write_buf]
  split <;> simp

/-- C5: delivered as one read, the chunked body "4\r\nWiki\r\n5\r\npedia\r\n
0\r\n\r\n" does yield body deliveries concatenating to "Wikipedia" and one
completion with no error — but the claim also covers every split into partial
reads, and a read ending mid-line ("4\r") makes process_inbuf's do-while loop
spin forever: process_one_message makes no progress while the input stays
non-empty, so no amount of fuel ever produces another event or frees the
loop.  The second conjunct shows the loop body is the identity there. -/
theorem c5_chunked_split_never_completes :
    ((process_inbuf_fuel 10 (chunk_conn "4\r\nWiki\r\n5\r\npedia\r\n0\r\n\r\n".toList)).2 =
      [Event.onReadBody "Wiki".toList, Event.onReadBody "pedia".toList, Event.onMsgComplete])
    ∧ ∀ n : Nat, process_inbuf_fuel n (chunk_conn ['4', '\r']) = (chunk_conn ['4', '\r'], []) := by
  constructor
  · decide
  · intro n
    induction n with
    | zero => rfl
    | succ m ih =>
      have hstep : process_one_message (chunk_conn ['4', '\r']) = (chunk_conn ['4', '\r'], []) := rfl
      simp only [process_inbuf_fuel, hstep]
      simp only [chunk_conn]
      simp
      exact ih

/-- C6: a complete chunk-size line that is not a hexadecimal non-negative
integer ("xyz\r\n") produces exactly one ChunkParseFailed error and no
body-data callback, whatever bytes follow the invalid line: end_message
mangles the connection, and on leftover input the next loop iteration only
reaches log_fatal (which ends the process), never a body delivery. -/
theorem c6_chunk_parse_failed_single_error :
    ∀ (rest : List Char) (n : Nat), 2 ≤ n →
      (process_inbuf_fuel n (chunk_conn ('x' :: 'y' :: 'z' :: '\r' :: '\n' :: rest))).2.count
          (Event.onError ERROR_CHUNK_PARSE_FAILED) = 1
      ∧ ∀ e ∈ (process_inbuf_fuel n (chunk_conn ('x' :: 'y' :: 'z' :: '\r' :: '\n' :: rest))).2,
          isReadBodyEvent e = false := by
  intro rest n hn
  obtain ⟨m, rfl⟩ : ∃ m, n = m + 2 := ⟨n - 2, by omega⟩
  have h1 : process_one_message (chunk_conn ('x' :: 'y' :: 'z' :: '\r' :: '\n' :: rest)) =
      ({ chunk_conn rest with state := MANGLED, bevRead := false, bevWrite := false },
       [Event.onError ERROR_CHUNK_PARSE_FAILED]) := rfl
  have h2 : process_one_message
        { chunk_conn rest with state := MANGLED, bevRead := false, bevWrite := false } =
      ({ chunk_conn rest with state := MANGLED, bevRead := false, bevWrite := false, fatal := true },
       [Event.fatalLog]) := rfl
  cases rest with
  | nil =>
    rw [show m + 2 = (m + 1) + 1 from rfl]
    simp only [process_inbuf_fuel, h1]
    simp [chunk_conn, isReadBodyEvent]
  | cons c t =>
    rw [show m + 2 = (m + 1) + 1 from rfl]
    simp only [process_inbuf_fuel, h1, h2]
    simp [chunk_conn, isReadBodyEvent]

/-- C6 witness: instantiating the theorem at the leftover bytes "MORE" and
fuel 5. -/
theorem c6_chunk_parse_failed_single_error_witness :
    (process_inbuf_fuel 5 (chunk_conn ('x' :: 'y' :: 'z' :: '\r' :: '\n' :: "MORE".toList))).2.count
        (Event.onError ERROR_CHUNK_PARSE_FAILED) = 1
    ∧ ∀ e ∈ (process_inbuf_fuel 5 (chunk_conn ('x' :: 'y' :: 'z' :: '\r' :: '\n' :: "MORE".toList))).2,
        isReadBodyEvent e = false :=
  c6_chunk_parse_failed_single_error "MORE".toList 5 (by decide)

/-- C7: http_conn_write_buf reports 0 ("choked") exactly when the output
buffer exceeds 50 KiB after the whole caller buffer has been appended, and
then marks the connection choked with the low watermark armed at 25 KiB;
http_writecb, which the transport invokes when the output drains to the low
watermark, emits on_write_more exactly when the connection is choked (and
clears the choke, so a repeat cannot emit it again). -/
theorem c7_choke_at_high_water_unchoke_once :
    (∀ (conn : HttpConn) (buf : List Char),
       ((http_conn_write_buf conn buf).2.2 = 0 ↔
          50 * 1024 < conn.outbuf.length + buf.length)
       ∧ ((http_conn_write_buf conn buf).2.2 = 0 →
          (http_conn_write_buf conn buf).1.is_choaked = true
          ∧ (http_conn_write_buf conn buf).1.watermarkLow = 25 * 1024))
    ∧ (∀ conn : HttpConn, conn.is_choaked = true →
        http_writecb conn =
          ({ conn with watermarkLow := 0, is_choaked := false }, [Event.onWriteMore]))
    ∧ (∀ conn : HttpConn, conn.is_choaked = false →
        Event.onWriteMore ∉ (http_writecb conn).2) := by
  refine ⟨fun conn buf => ?_, fun conn h => ?_, fun conn h => ?_⟩
  · simp only [http_conn_write_buf, List.length_append, max_write_backlog]
    by_cases h : 50 * 1024 < conn.outbuf.length + buf.length
    · simp [h]
    · simp [h]
  · simp [http_writecb, h]
  · by_cases ho : conn.outbuf.length = 0 <;> simp [http_writecb, h, ho]

/-- C7 witness: a write taking the empty output buffer to 51201 bytes chokes,
and the drain callback on a choked connection emits on_write_more. -/
theorem c7_choke_witness :
    (http_conn_write_buf write_conn (List.replicate 51201 'a')).2.2 = 0
    ∧ (http_writecb { write_conn with is_choaked := true }).2 = [Event.onWriteMore] := by
  refine ⟨(c7_choke_at_high_water_unchoke_once.1 write_conn _).1.mpr ?_, ?_⟩
  · rw [List.length_replicate]
    norm_num [write_conn]
  · rw [c7_choke_at_high_water_unchoke_once.2.1 _ rfl]

/-- C8: a transport event hitting a connection in READ_BODY (not a connect
completion, not a write error) ends the message successfully exactly when it
is an EOF and msg_complete_on_eof is set; every other case — EOF on a
counted or chunked body, or a timeout even with msg_complete_on_eof —
reports IncompleteBody. -/
theorem c8_readbody_eof_completes_iff :
    ∀ (conn : HttpConn) (what : BevWhat),
      conn.state = READ_BODY → what.connected = false → what.writing = false →
      (http_errorcb conn what).2 =
        (if what.eof = true ∧ conn.msg_complete_on_eof = true
         then [Event.onMsgComplete]
         else [Event.onError ERROR_INCOMPLETE_BODY]) := by
  intro conn what hs hc hw
  simp only [http_errorcb, hs, hw]
  cases heof : what.eof <;> cases hmce : conn.msg_complete_on_eof <;>
    simp [end_message, heof, hmce]

/-- C8 witness: an EOF on the unknown-length body connection completes the
message; a timeout on the same connection reports IncompleteBody. -/
theorem c8_readbody_eof_witness :
    (http_errorcb eof_body_conn
        { connected := false, writing := false, eof := true, timeout := false }).2 =
      [Event.onMsgComplete]
    ∧ (http_errorcb eof_body_conn
        { connected := false, writing := false, eof := false, timeout := true }).2 =
      [Event.onError ERROR_INCOMPLETE_BODY] := by
  constructor
  · rw [c8_readbody_eof_completes_iff eof_body_conn _ rfl rfl rfl]
    decide
  · rw [c8_readbody_eof_completes_iff eof_body_conn _ rfl rfl rfl]
    decide

/-- end_message never touches data_remaining. -/
theorem end_message_data_remaining (conn : HttpConn) (err : HttpConnError) :
    (end_message conn err).1.data_remaining = conn.data_remaining := by
  simp only [end_message, begin_message]
  split <;> rfl

/-- parse_chunk_len_aux either leaves data_remaining unchanged or stores a
parsed (non-negative) chunk length, so it preserves the -1 floor. -/
theorem parse_chunk_len_aux_floor (fuel : Nat) :
    ∀ conn : HttpConn, -1 ≤ conn.data_remaining →
      -1 ≤ (parse_chunk_len_aux fuel conn).2.data_remaining := by
  induction fuel with
  | zero => intro conn h; exact h
  | succ f ih =>
    intro conn h
    simp only [parse_chunk_len_aux]
    cases hr : readln conn.inbuf with
    | none => exact h
    | some p =>
      obtain ⟨line, rest⟩ := p
      by_cases hl : line = []
      · simp only [hl, if_pos rfl]
        exact ih _ (by simpa using h)
      · simp only [if_neg hl]
        by_cases hg : get_int line 16 < 0
        · simp only [if_pos hg]
          simpa using h
        · simp only [if_neg hg]
          simpa using by omega

/-- C9 (amended): per body-reading step, data_remaining keeps the -1 floor
for chunked bodies (−1 exactly at chunk boundaries or while a size line is
pending) and stays non-negative for known-length bodies; but while streaming
a body with no determinable length it drops below −1, tracking its old value
minus the bytes consumed. -/
theorem c9_data_remaining_step_invariants :
    (∀ conn : HttpConn, conn.te = TE_CHUNKED → -1 ≤ conn.data_remaining →
       -1 ≤ (read_chunk conn).1.data_remaining)
    ∧ (∀ conn : HttpConn, conn.te = TE_IDENTITY → 0 ≤ conn.data_remaining →
       0 ≤ (read_body conn).1.data_remaining)
    ∧ (∀ conn : HttpConn, conn.te = TE_IDENTITY → conn.data_remaining < 0 →
       (read_body conn).1.data_remaining =
         conn.data_remaining - conn.inbuf.length) := by
  refine ⟨fun conn _hte h => ?_, fun conn hte h => ?_, fun conn hte h => ?_⟩
  · simp only [read_chunk]
    by_cases h1 : conn.data_remaining < 0
    · simp only [if_pos h1]
      have hp := parse_chunk_len_aux_floor (conn.inbuf.length + 1) conn h
      simp only [parse_chunk_len]
      split
      · rw [end_message_data_remaining]
        exact hp
      · exact hp
    · by_cases h2 : conn.data_remaining = 0
      · simp only [if_neg h1, if_pos h2]
        cases hr : readln conn.inbuf with
        | none => exact h
        | some p =>
          rw [end_message_data_remaining]
          simpa using h
      · simp only [if_neg h1, if_neg h2]
        have h4 : ((min conn.inbuf.length conn.data_remaining.toNat : Nat) : Int)
            ≤ conn.data_remaining := by
          have h5 := Int.toNat_of_nonneg (by omega : (0:Int) ≤ conn.data_remaining)
          have h6 := min_le_right conn.inbuf.length conn.data_remaining.toNat
          omega
        split
        · dsimp only
          omega
        · dsimp only
          omega
  · simp only [read_body, hte]
    simp only [if_neg (by simp : ¬(TE_IDENTITY = TE_CHUNKED))]
    by_cases hl : conn.inbuf.length = 0
    · simp only [if_pos hl]; exact h
    · simp only [if_neg hl]
      by_cases hc : 0 ≤ conn.data_remaining ∧ conn.data_remaining < (conn.inbuf.length : Int)
      · simp only [if_pos hc]
        have ht := Int.toNat_of_nonneg hc.1
        split
        · rw [end_message_data_remaining]
          dsimp only
          omega
        · dsimp only
          omega
      · simp only [if_neg hc]
        have h5 : (conn.inbuf.length : Int) ≤ conn.data_remaining := by
          rcases not_and_or.mp hc with h6 | h6 <;> omega
        split
        · rw [end_message_data_remaining]
          dsimp only
          omega
        · dsimp only
          omega
  · simp only [read_body, hte]
    simp only [if_neg (by simp : ¬(TE_IDENTITY = TE_CHUNKED))]
    by_cases hl : conn.inbuf.length = 0
    · simp only [if_pos hl]
      omega
    · simp only [if_neg hl]
      have hc : ¬(0 ≤ conn.data_remaining ∧ conn.data_remaining < (conn.inbuf.length : Int)) := by
        omega
      simp only [if_neg hc]
      split
      · rw [end_message_data_remaining]
      · dsimp only

/-- C9 witness: the step invariants instantiated on a chunked connection
awaiting a size line, a known-length body with three bytes remaining, and the
unknown-length streaming connection. -/
theorem c9_data_remaining_step_invariants_witness :
    -1 ≤ (read_chunk (chunk_conn ['4', '\r', '\n'])).1.data_remaining
    ∧ 0 ≤ (read_body
        { eof_body_conn with msg_complete_on_eof := false, data_remaining := 3 }).1.data_remaining
    ∧ (read_body eof_body_conn).1.data_remaining =
        eof_body_conn.data_remaining - eof_body_conn.inbuf.length :=
  ⟨c9_data_remaining_step_invariants.1 _ rfl (by decide),
   c9_data_remaining_step_invariants.2.1 _ rfl (by decide),
   c9_data_remaining_step_invariants.2.2 _ rfl (by decide)⟩

/-- splitAtChar finds the first occurrence of the separator. -/
theorem splitAtChar_append (c : Char) : ∀ (a rest : List Char), c ∉ a →
    splitAtChar c (a ++ c :: rest) = some (a, rest) := by
  intro a
  induction a with
  | nil => intro rest _; simp [splitAtChar]
  | cons x t ih =>
    intro rest h
    simp only [List.cons_append, splitAtChar]
    rw [if_neg (by rintro rfl; exact h (by simp))]
    simp only [List.append_eq]
    rw [ih rest (fun hm => h (by simp [hm]))]
    rfl

/-- splitAtChar fails when the separator does not occur. -/
theorem splitAtChar_none (c : Char) : ∀ l : List Char, c ∉ l →
    splitAtChar c l = none := by
  intro l
  induction l with
  | nil => intro _; rfl
  | cons x t ih =>
    intro h
    simp only [splitAtChar]
    rw [if_neg (by rintro rfl; exact h (by simp))]
    rw [ih (fun hm => h (by simp [hm]))]
    rfl

theorem dropTrailingCr_concat (l : List Char) : dropTrailingCr (l ++ ['\r']) = l := by
  simp [dropTrailingCr]

/-- readln consumes exactly one CRLF-terminated line when the line body holds
no LF. -/
theorem readln_append (l rest : List Char) (h : '\n' ∉ l) :
    readln (l ++ '\r' :: '\n' :: rest) = some (l, rest) := by
  have h2 : '\n' ∉ (l ++ ['\r']) := by
    intro hm
    rcases List.mem_append.mp hm with hm | hm
    · exact h hm
    · simp at hm
  have hre : l ++ '\r' :: '\n' :: rest = (l ++ ['\r']) ++ '\n' :: rest := by simp
  rw [hre]
  simp only [readln]
  rw [splitAtChar_append '\n' (l ++ ['\r']) rest h2]
  simp [dropTrailingCr_concat]

theorem tokenize_two (a b r : List Char) (ha : ' ' ∉ a) (hb : ' ' ∉ b) :
    tokenize ' ' 2 (a ++ ' ' :: (b ++ ' ' :: r)) = [a, b, r] := by
  have e1 := splitAtChar_append ' ' a (b ++ ' ' :: r) ha
  have e2 := splitAtChar_append ' ' b r hb
  simp [tokenize, e1, e2]

theorem tokenize_four (a b r : List Char) (ha : ' ' ∉ a) (hb : ' ' ∉ b)
    (hr : ' ' ∉ r) :
    tokenize ' ' 4 (a ++ ' ' :: (b ++ ' ' :: r)) = [a, b, r] := by
  have e1 := splitAtChar_append ' ' a (b ++ ' ' :: r) ha
  have e2 := splitAtChar_append ' ' b r hb
  have e3 := splitAtChar_none ' ' r hr
  simp [tokenize, e1, e2, e3]

theorem parseHeaderLine_dump (h : Header) (hname : ':' ∉ h.name) :
    parseHeaderLine (h.name ++ ':' :: ' ' :: h.value) = some h := by
  simp only [parseHeaderLine]
  rw [splitAtChar_append ':' h.name (' ' :: h.value) hname]
  rfl

theorem headers_dump_length (hs : List Header) : hs.length ≤ (headers_dump hs).length := by
  induction hs with
  | nil => simp [headers_dump]
  | cons h t ih => simp [headers_dump]; omega

theorem headers_load_aux_dump : ∀ (hs acc : List Header) (fuel : Nat),
    (∀ h ∈ hs, ':' ∉ h.name ∧ '\n' ∉ h.name ∧ '\n' ∉ h.value) →
    hs.length + 1 ≤ fuel →
    headers_load_aux fuel acc (headers_dump hs) = (1, acc ++ hs, []) := by
  intro hs
  induction hs with
  | nil =>
    intro acc fuel _ hf
    obtain ⟨f, rfl⟩ : ∃ f, fuel = f + 1 := ⟨fuel - 1, by omega⟩
    simp only [headers_dump, headers_load_aux]
    have hr : readln ['\r', '\n'] = some ([], []) := rfl
    rw [hr]
    simp
  | cons h t ih =>
    intro acc fuel hwf hf
    obtain ⟨f, rfl⟩ : ∃ f, fuel = f + 1 := ⟨fuel - 1, by omega⟩
    have hw := hwf h (by simp)
    have hline : '\n' ∉ (h.name ++ ':' :: ' ' :: h.value) := by
      simp only [List.mem_append, List.mem_cons]
      push_neg
      refine ⟨hw.2.1, by decide, by decide, hw.2.2⟩
    have hshape : headers_dump (h :: t) =
        (h.name ++ ':' :: ' ' :: h.value) ++ '\r' :: '\n' :: headers_dump t := by
      simp [headers_dump]
    rw [hshape]
    simp only [headers_load_aux]
    rw [readln_append _ _ hline]
    have hne : ¬(h.name ++ ':' :: ' ' :: h.value = []) := by simp
    dsimp only
    rw [if_neg hne]
    rw [parseHeaderLine_dump h hw.1]
    dsimp only
    rw [ih (acc ++ [h]) f (fun x hx => hwf x (by simp [hx])) (by simp at hf ⊢; omega)]
    simp

theorem headers_load_dump (hs : List Header)
    (hwf : ∀ h ∈ hs, ':' ∉ h.name ∧ '\n' ∉ h.name ∧ '\n' ∉ h.value) :
    headers_load [] (headers_dump hs) = (1, hs, []) := by
  simp only [headers_load]
  rw [headers_load_aux_dump hs [] _ hwf (by have := headers_dump_length hs; omega)]
  simp

theorem digitChar_bounds (k : Nat) (h : k < 10) :
    '0' ≤ Char.ofNat (48 + k) ∧ Char.ofNat (48 + k) ≤ '9' := by
  interval_cases k <;> decide

theorem toNat_digitChar (k : Nat) (h : k < 10) : (Char.ofNat (48 + k)).toNat = 48 + k := by
  interval_cases k <;> decide

theorem natToDecF_isDigit : ∀ (fuel n : Nat), n < fuel →
    ∀ c ∈ natToDecF fuel n, '0' ≤ c ∧ c ≤ '9' := by
  intro fuel
  induction fuel with
  | zero => intro n h; omega
  | succ f ih =>
    intro n h c hc
    simp only [natToDecF] at hc
    by_cases h10 : n < 10
    · rw [if_pos h10] at hc
      simp at hc
      subst hc
      exact digitChar_bounds n h10
    · rw [if_neg h10] at hc
      rcases List.mem_append.mp hc with h1 | h1
      · have hd : n / 10 < f := by
          have := Nat.div_lt_self (show 0 < n by omega) (show 1 < 10 by norm_num)
          omega
        exact ih (n / 10) hd c h1
      · simp at h1
        subst h1
        exact digitChar_bounds _ (Nat.mod_lt _ (by norm_num))

theorem atoiDigitsAux_append : ∀ (l₁ l₂ : List Char) (a : Nat),
    (∀ c ∈ l₁, '0' ≤ c ∧ c ≤ '9') →
    atoiDigitsAux (l₁ ++ l₂) a = atoiDigitsAux l₂ (atoiDigitsAux l₁ a) := by
  intro l₁
  induction l₁ with
  | nil => intro l₂ a _; simp [atoiDigitsAux]
  | cons c t ih =>
    intro l₂ a h
    have hc := h c (by simp)
    simp only [List.cons_append, atoiDigitsAux, if_pos hc]
    exact ih l₂ _ (fun x hx => h x (by simp [hx]))

theorem atoiDigitsAux_digitChar (k a : Nat) (h : k < 10) :
    atoiDigitsAux [Char.ofNat (48 + k)] a = a * 10 + k := by
  simp only [atoiDigitsAux, if_pos (digitChar_bounds k h)]
  rw [toNat_digitChar k h]
  omega

theorem atoiDigitsAux_natToDecF : ∀ (fuel n : Nat), n < fuel →
    atoiDigitsAux (natToDecF fuel n) 0 = n := by
  intro fuel
  induction fuel with
  | zero => intro n h; omega
  | succ f ih =>
    intro n h
    simp only [natToDecF]
    by_cases h10 : n < 10
    · rw [if_pos h10]
      have := atoiDigitsAux_digitChar n 0 h10
      simpa using this
    · rw [if_neg h10]
      have hd : n / 10 < f := by
        have := Nat.div_lt_self (show 0 < n by omega) (show 1 < 10 by norm_num)
        omega
      rw [atoiDigitsAux_append _ _ _ (natToDecF_isDigit f (n / 10) hd)]
      rw [ih (n / 10) hd]
      rw [atoiDigitsAux_digitChar _ _ (Nat.mod_lt _ (by norm_num))]
      omega

theorem natToDec_ne_nil (n : Nat) : natToDec n ≠ [] := by
  simp only [natToDec, natToDecF]
  split <;> simp

theorem natToDec_isDigit (n : Nat) : ∀ c ∈ natToDec n, '0' ≤ c ∧ c ≤ '9' :=
  natToDecF_isDigit (n + 1) n (by omega)

theorem digits_no_space (l : List Char) (h : ∀ c ∈ l, '0' ≤ c ∧ c ≤ '9') :
    ' ' ∉ l := by
  intro hm
  have := h _ hm
  exact absurd this (by decide)

theorem digits_no_lf (l : List Char) (h : ∀ c ∈ l, '0' ≤ c ∧ c ≤ '9') :
    '\n' ∉ l := by
  intro hm
  have := h _ hm
  exact absurd this (by decide)

theorem atoi_digits_eq (l : List Char) (hne : l ≠ [])
    (hd : ∀ c ∈ l, '0' ≤ c ∧ c ≤ '9') :
    atoi l = (atoiDigitsAux l 0 : Int) := by
  cases l with
  | nil => exact absurd rfl hne
  | cons c t =>
    have hc := hd c (by simp)
    have hsp : ¬(c = ' ') := by rintro rfl; exact absurd hc (by decide)
    have hminus : ¬(c = '-') := by rintro rfl; exact absurd hc (by decide)
    have hplus : ¬(c = '+') := by rintro rfl; exact absurd hc (by decide)
    simp only [atoi, List.dropWhile_cons]
    rw [if_neg (by simpa using hsp)]
    dsimp only
    rw [if_neg hminus, if_neg hplus]
    rfl

theorem atoi_natToDec (n : Nat) : atoi (natToDec n) = (n : Int) := by
  rw [atoi_digits_eq _ (natToDec_ne_nil n) (natToDec_isDigit n)]
  simp only [natToDec]
  rw [atoiDigitsAux_natToDecF (n + 1) n (by omega)]

theorem atoi_intToDec (i : Int) (h : 0 ≤ i) : atoi (intToDec i) = i := by
  simp only [intToDec, if_neg (by omega : ¬(i < 0))]
  rw [atoi_natToDec]
  omega

theorem intToDec_isDigit (i : Int) (h : 0 ≤ i) :
    ∀ c ∈ intToDec i, '0' ≤ c ∧ c ≤ '9' := by
  simp only [intToDec, if_neg (by omega : ¬(i < 0))]
  exact natToDec_isDigit i.toNat

theorem version_roundtrip (v : HttpVersion) (h : v = HTTP_10 ∨ v = HTTP_11) :
    version_from_string (version_to_string v) = some v := by
  rcases h with rfl | rfl <;> decide

theorem version_no_space (v : HttpVersion) : ' ' ∉ version_to_string v := by
  cases v <;> decide

theorem version_no_lf (v : HttpVersion) : '\n' ∉ version_to_string v := by
  cases v <;> decide

theorem method_roundtrip (m : HttpMethod) :
    method_from_string (method_to_string m) = some m := by
  cases m <;> decide

theorem method_no_space (m : HttpMethod) : ' ' ∉ method_to_string m := by
  cases m <;> decide

theorem method_no_lf (m : HttpMethod) : '\n' ∉ method_to_string m := by
  cases m <;> decide

/-- C4 (amended): the round trip holds for requests with a well-formed first
line and headers; for responses it holds exactly when the response's version
equals the connection's negotiated version, because
http_conn_write_response serializes `conn->vers`, the connection's
negotiated version, not the response's own version field. -/
theorem c4_roundtrip_amended :
    (∀ (conn : HttpConn) (resp : HttpResponse),
       conn.outbuf = [] →
       resp.vers = conn.vers →
       (conn.vers = HTTP_10 ∨ conn.vers = HTTP_11) →
       100 ≤ resp.code → resp.code ≤ 999 →
       '\n' ∉ resp.reason →
       (∀ h ∈ resp.headers, ':' ∉ h.name ∧ '\n' ∉ h.name ∧ '\n' ∉ h.value) →
       parse_response_bytes (http_conn_write_response conn resp).outbuf = some resp)
    ∧ (∀ (conn : HttpConn) (req : HttpRequest),
       conn.outbuf = [] →
       (req.vers = HTTP_10 ∨ req.vers = HTTP_11) →
       req.url.query ≠ [] → ' ' ∉ req.url.query → '\n' ∉ req.url.query →
       (∀ h ∈ req.headers, ':' ∉ h.name ∧ '\n' ∉ h.name ∧ '\n' ∉ h.value) →
       parse_request_bytes (http_conn_write_request conn req).outbuf = some req) := by
  constructor
  · intro conn resp hout hv hvv h100 h999 hlf hwf
    obtain ⟨rv, rc, rr, rh⟩ := resp
    replace hv : rv = conn.vers := hv
    replace h100 : (100 : Int) ≤ rc := h100
    replace h999 : rc ≤ (999 : Int) := h999
    replace hlf : '\n' ∉ rr := hlf
    replace hwf : ∀ h ∈ rh, ':' ∉ h.name ∧ '\n' ∉ h.name ∧ '\n' ∉ h.value := hwf
    subst hv
    have hBdig := intToDec_isDigit rc (by omega)
    simp only [http_conn_write_response, response_firstline, hout, List.nil_append]
    have hshape :
        (version_to_string conn.vers ++ ' ' :: (intToDec rc ++ ' ' :: (rr ++ ['\r', '\n'])))
            ++ headers_dump rh
          = (version_to_string conn.vers ++ ' ' :: (intToDec rc ++ ' ' :: rr))
            ++ '\r' :: '\n' :: headers_dump rh := by
      simp [List.append_assoc]
    rw [hshape]
    have hlnolf :
        '\n' ∉ (version_to_string conn.vers ++ ' ' :: (intToDec rc ++ ' ' :: rr)) := by
      intro hm
      rcases List.mem_append.mp hm with hm | hm
      · exact version_no_lf conn.vers hm
      · rcases List.mem_cons.mp hm with hm | hm
        · exact absurd hm (by decide)
        · rcases List.mem_append.mp hm with hm | hm
          · exact digits_no_lf _ hBdig hm
          · rcases List.mem_cons.mp hm with hm | hm
            · exact absurd hm (by decide)
            · exact hlf hm
    simp only [parse_response_bytes]
    rw [readln_append _ _ hlnolf]
    dsimp only
    rw [headers_load_dump rh hwf]
    dsimp only
    rw [if_pos rfl]
    simp only [build_response]
    rw [tokenize_two _ _ _ (version_no_space conn.vers) (digits_no_space _ hBdig)]
    simp only [List.length_cons, List.length_nil, List.getD_cons_zero, List.getD_cons_succ]
    rw [if_neg (by norm_num)]
    rw [version_roundtrip conn.vers hvv]
    dsimp only
    rw [atoi_intToDec rc (by omega)]
    rw [if_neg (by omega : ¬(rc < 100 ∨ rc > 999))]
  · intro conn req hout hvv hqne hqsp hqlf hwf
    obtain ⟨rm, rv, ru, rh⟩ := req
    obtain ⟨q⟩ := ru
    replace hvv : rv = HTTP_10 ∨ rv = HTTP_11 := hvv
    replace hqne : q ≠ [] := hqne
    replace hqsp : ' ' ∉ q := hqsp
    replace hqlf : '\n' ∉ q := hqlf
    replace hwf : ∀ h ∈ rh, ':' ∉ h.name ∧ '\n' ∉ h.name ∧ '\n' ∉ h.value := hwf
    simp only [http_conn_write_request, request_firstline, hout, List.nil_append]
    have hshape :
        (method_to_string rm ++ ' ' :: (q ++ ' ' :: (version_to_string rv ++ ['\r', '\n'])))
            ++ headers_dump rh
          = (method_to_string rm ++ ' ' :: (q ++ ' ' :: version_to_string rv))
            ++ '\r' :: '\n' :: headers_dump rh := by
      simp [List.append_assoc]
    rw [hshape]
    have hlnolf :
        '\n' ∉ (method_to_string rm ++ ' ' :: (q ++ ' ' :: version_to_string rv)) := by
      intro hm
      rcases List.mem_append.mp hm with hm | hm
      · exact method_no_lf rm hm
      · rcases List.mem_cons.mp hm with hm | hm
        · exact absurd hm (by decide)
        · rcases List.mem_append.mp hm with hm | hm
          · exact hqlf hm
          · rcases List.mem_cons.mp hm with hm | hm
            · exact absurd hm (by decide)
            · exact version_no_lf rv hm
    simp only [parse_request_bytes]
    rw [readln_append _ _ hlnolf]
    dsimp only
    rw [headers_load_dump rh hwf]
    dsimp only
    rw [if_pos rfl]
    simp only [build_request]
    rw [tokenize_four _ _ _ (method_no_space rm) hqsp (version_no_space rv)]
    simp only [List.length_cons, List.length_nil, List.getD_cons_zero, List.getD_cons_succ]
    rw [if_neg (by norm_num)]
    simp only [url_tokenize, if_neg hqne]
    rw [method_roundtrip rm, version_roundtrip rv hvv]

/-- C4 witness: the amended round trip instantiated on a connection with
negotiated version HTTP/1.1, the matching "HTTP/1.1 200 OK" response, and
the "POST / HTTP/1.1" request. -/
theorem c4_roundtrip_amended_witness :
    parse_response_bytes (http_conn_write_response write_conn ok_response).outbuf
        = some ok_response
    ∧ parse_request_bytes (http_conn_write_request write_conn post_req).outbuf
        = some post_req :=
  ⟨c4_roundtrip_amended.1 write_conn ok_response rfl rfl (Or.inr rfl) (by decide) (by decide)
      (by decide) (by decide),
   c4_roundtrip_amended.2 write_conn post_req rfl (Or.inr rfl) (by decide) (by decide)
      (by decide) (by decide)⟩
